import Mathlib

/-!
Verification of the moreland color-palette package.

The Go source computes with float64; this development embeds the code over
the real numbers ℝ, translating each Go function into a Lean definition of
the same name and structure.  A second, clearly marked model over
FP := Option ℝ (none = IEEE NaN) is used for the one claim that is about
NaN propagation.
-/

noncomputable section

/-- MSH defines a color in Magnitude-Saturation-Hue color space
(struct MSH in convert.go). -/
structure MSH where
  M : ℝ
  S : ℝ
  H : ℝ

/-- DivergingMSH is the diverging color map (struct DivergingMSH in the
diverging source file): start/end colors, convergence parameters, alpha
and the scalar domain bounds. -/
structure DivergingMSH where
  start : MSH
  «end» : MSH
  ConvergePoint : ℝ
  ConvergeM : ℝ
  Alpha : ℝ
  min : ℝ
  max : ℝ

/-- hueTwist from convert.go:
signH := c.H / math.Abs(c.H);
return signH * c.S * math.Sqrt(convergeM*convergeM-c.M*c.M) / (c.M * math.Sin(c.S)). -/
def hueTwist (c : MSH) (convergeM : ℝ) : ℝ :=
  let signH := c.H / |c.H|
  signH * c.S * Real.sqrt (convergeM * convergeM - c.M * c.M) / (c.M * Real.sin c.S)

/-- NewDivergingMSH from the diverging source file: defaults
ConvergeM = 88, ConvergePoint = 0.5, Alpha = 1, min = max = 0. -/
def NewDivergingMSH (s e : MSH) : DivergingMSH :=
  { start := s, «end» := e, ConvergePoint := 0.5, ConvergeM := 88,
    Alpha := 1, min := 0, max := 0 }

/-- interpolateMSHDiverging from the diverging source file, translated
branch for branch (the unassigned Go variable `var H float64` defaults
to 0 in the scalar ≥ ConvergePoint, scalar ≤ ConvergePoint case). -/
def DivergingMSH.interpolateMSHDiverging (p : DivergingMSH) (scalar : ℝ) : MSH :=
  let startHTwist := hueTwist p.start p.ConvergeM
  let endHTwist := hueTwist p.«end» p.ConvergeM
  if scalar < p.ConvergePoint then
    let interp := scalar / p.ConvergePoint
    { M := (p.ConvergeM - p.start.M) * interp + p.start.M
      S := p.start.S * (1 - interp)
      H := p.start.H + startHTwist * interp }
  else
    let interp1 := (scalar - 1) / (p.ConvergePoint - 1)
    let interp2 := scalar / p.ConvergePoint - 1
    let H := if p.ConvergePoint < scalar then p.«end».H + endHTwist * interp1 else 0
    { M := (p.ConvergeM - p.«end».M) * interp1 + p.«end».M
      S := p.«end».S * interp2
      H := H }

/-- linearRGB represents a physically linear RGB color (convert.go). -/
structure linearRGB where
  R : ℝ
  G : ℝ
  B : ℝ

/-- cieXYZ represents a color in CIE XYZ space (convert.go). -/
structure cieXYZ where
  X : ℝ
  Y : ℝ
  Z : ℝ

/-- cieLAB represents a color in CIE LAB space (convert.go). -/
structure cieLAB where
  L : ℝ
  A : ℝ
  B : ℝ

/-- sRGB color with a non-premultiplied alpha channel (convert.go). -/
structure sRGBA where
  R : ℝ
  G : ℝ
  B : ℝ
  A : ℝ

/-- linearToS from convert.go: linear RGB component to sRGB component. -/
def linearToS (v : ℝ) : ℝ :=
  if 0.0031308 < v then 1.055 * v ^ ((1:ℝ)/2.4) - 0.055 else 12.92 * v

/-- sToLinear from convert.go: sRGB component to linear RGB component. -/
def sToLinear (v : ℝ) : ℝ :=
  if 0.04045 < v then ((v + 0.055) / 1.055) ^ (2.4:ℝ) else v / 12.92

/-- linearRGB.XYZ from convert.go. -/
def linearRGB.XYZ (c : linearRGB) : cieXYZ :=
  { X := 0.4124 * c.R + 0.3576 * c.G + 0.1805 * c.B
    Y := 0.2126 * c.R + 0.7152 * c.G + 0.0722 * c.B
    Z := 0.0193 * c.R + 0.1192 * c.G + 0.9505 * c.B }

/-- cieXYZ.linearRGB from convert.go. -/
def cieXYZ.linearRGB (c : cieXYZ) : linearRGB :=
  { R := c.X * 3.2406 + c.Y * (-1.5372) + c.Z * (-0.4986)
    G := c.X * (-0.9689) + c.Y * 1.8758 + c.Z * 0.0415
    B := c.X * 0.0557 + c.Y * (-0.204) + c.Z * 1.057 }

/-- labTemp from convert.go: intermediate step converting CIE XYZ to CIE LAB. -/
def labTemp (v : ℝ) : ℝ :=
  if 0.008856 < v then v ^ ((1:ℝ)/3) else 7.787 * v + 16/116

/-- cieXYZ.LAB from convert.go.  Note the divisors 0.9505 and 1.089. -/
def cieXYZ.LAB (c : cieXYZ) : cieLAB :=
  let tempX := labTemp (c.X / 0.9505)
  let tempY := labTemp c.Y
  let tempZ := labTemp (c.Z / 1.089)
  { L := 116 * tempY - 16
    A := 500 * (tempX - tempY)
    B := 200 * (tempY - tempZ) }

/-- sRGBA.linearRGB from convert.go. -/
def sRGBA.linearRGB (c : sRGBA) : linearRGB :=
  { R := sToLinear c.R, G := sToLinear c.G, B := sToLinear c.B }

/-- sRGBA.LAB from convert.go. -/
def sRGBA.LAB (c : sRGBA) : cieLAB :=
  c.linearRGB.XYZ.LAB

/-- xyzTemp from convert.go: intermediate step converting CIE LAB to CIE XYZ
(the threshold constant ylim = a*xlim + b written out). -/
def xyzTemp (v : ℝ) : ℝ :=
  if 7.787 * 0.008856 + 16/116 < v then v * v * v else (v - 16/116) / 7.787

/-- cieLAB.XYZ from convert.go, reference white point
(xn, yn, zn) = (0.95047, 1.0, 1.08883). -/
def cieLAB.XYZ (c : cieLAB) : cieXYZ :=
  { X := 0.95047 * xyzTemp (c.A/500 + (c.L + 16)/116)
    Y := 1.0 * xyzTemp ((c.L + 16)/116)
    Z := 1.08883 * xyzTemp ((c.L + 16)/116 - c.B/200) }

/-- MSH.lab from convert.go: MSH color to CIELAB color. -/
def MSH.lab (c : MSH) : cieLAB :=
  { L := c.M * Real.cos c.S
    A := c.M * Real.sin c.S * Real.cos c.H
    B := c.M * Real.sin c.S * Real.sin c.H }

/-- linearRGB.S from convert.go: linear RGB to sRGBA with the given alpha. -/
def linearRGB.S (c : linearRGB) (alpha : ℝ) : sRGBA :=
  { R := linearToS c.R, G := linearToS c.G, B := linearToS c.B, A := alpha }

/-- cieLAB.sRGB from convert.go. -/
def cieLAB.sRGB (c : cieLAB) (alpha : ℝ) : sRGBA :=
  (c.XYZ.linearRGB).S alpha

/-- The external color.Color capability: RGBA() yields four channel values
premultiplied by alpha on the 0..65535 scale. -/
structure GoColor where
  r : ℝ
  g : ℝ
  b : ℝ
  a : ℝ

/-- colorTosRGBA from convert.go: un-premultiplies an external color. -/
def colorTosRGBA (c : GoColor) : sRGBA :=
  let alpha := c.a / 65535
  { R := c.r / alpha / 65535
    G := c.g / alpha / 65535
    B := c.b / alpha / 65535
    A := alpha }

/-- sRGBA.check from convert.go: the condition under which check() returns a
non-nil error (some channel outside the interval from 0 to 1). -/
def sRGBA.check (c : sRGBA) : Prop :=
  1 < c.R ∨ 1 < c.G ∨ 1 < c.B ∨ 1 < c.A ∨ c.R < 0 ∨ c.G < 0 ∨ c.B < 0 ∨ c.A < 0

/-- sRGBA.fix from convert.go: clamps all channels, first from above at 1,
then from below at 0, in the source's order. -/
def sRGBA.fix (c : sRGBA) : sRGBA :=
  let c1 : sRGBA :=
    { R := if 1 < c.R then 1 else c.R
      G := if 1 < c.G then 1 else c.G
      B := if 1 < c.B then 1 else c.B
      A := if 1 < c.A then 1 else c.A }
  { R := if c1.R < 0 then 0 else c1.R
    G := if c1.G < 0 then 0 else c1.G
    B := if c1.B < 0 then 0 else c1.B
    A := if c1.A < 0 then 0 else c1.A }

/-- Luminance is the luminance color map (luminance.go): CIELAB control
colors, their normalized scalar positions, alpha and the domain maximum. -/
structure Luminance where
  colors : List cieLAB
  scalars : List ℝ
  Alpha : ℝ
  max : ℝ

/-- The LAB values NewLuminance computes for its control colors:
colorTosRGBA(c).LAB() for each input color, in order. -/
def controlLABs (cs : List GoColor) : List cieLAB :=
  cs.map (fun c => (colorTosRGBA c).LAB)

/-- The running maximum of the luminances that NewLuminance accumulates via
math.Max starting from -Inf (for a nonempty list this is the fold of max
over all L values, seeded by the first). -/
def lumLmax (labs : List cieLAB) : ℝ :=
  labs.tail.foldl (fun m c => max m c.L) (labs.getD 0 ⟨0, 0, 0⟩).L

/-- The running minimum of the luminances that NewLuminance accumulates via
math.Min starting from +Inf. -/
def lumLmin (labs : List cieLAB) : ℝ :=
  labs.tail.foldl (fun m c => min m c.L) (labs.getD 0 ⟨0, 0, 0⟩).L

/-- NewLuminance from luminance.go: converts each control color to CIELAB,
fails when some luminance does not strictly exceed its predecessor, else
normalizes the L values to scalars and forces scalars[0] = 0 then
scalars[last] = 1.  (The Go code panics on an empty input when assigning
scalars[0]; we return none there and claims assume a nonempty input.) -/
def NewLuminance : List GoColor → Option Luminance
  | [] => none
  | c0 :: cs =>
    let labs := controlLABs (c0 :: cs)
    if List.Chain' (fun a b => a.L < b.L) labs then
      let mx := lumLmax labs
      let mn := lumLmin labs
      let scalars := labs.map (fun c => (c.L - mn) / (mx - mn))
      some { colors := labs
             scalars := (scalars.set 0 0).set (scalars.length - 1) 1
             Alpha := 1
             max := 0 }
    else none

/-- sort.SearchFloat64s: the smallest index i with a[i] ≥ x, or the length
of the list when there is none (for a sorted list, as Go requires). -/
def searchF64s : List ℝ → ℝ → ℕ
  | [], _ => 0
  | a :: rest, x => if x ≤ a then 0 else searchF64s rest x + 1

/-- Luminance.At from luminance.go: fails when max = 0 or the normalized
scalar is out of range; at insertion index 0 returns the first control color
unclamped; otherwise interpolates L, A, B between the bracketing control
colors and clamps the converted result. -/
def Luminance.At (l : Luminance) (scalar : ℝ) : Option sRGBA :=
  if l.max = 0 then none
  else
    let s := scalar / l.max
    if s < 0 ∨ 1 < s then none
    else
      let i := searchF64s l.scalars s
      if i = 0 then some ((l.colors.getD 0 ⟨0, 0, 0⟩).XYZ.linearRGB.S l.Alpha)
      else
        let c1 := l.colors.getD (i - 1) ⟨0, 0, 0⟩
        let c2 := l.colors.getD i ⟨0, 0, 0⟩
        let frac := (s - l.scalars.getD (i - 1) 0) /
          (l.scalars.getD i 0 - l.scalars.getD (i - 1) 0)
        some (sRGBA.fix ((cieLAB.mk (frac * (c2.L - c1.L) + c1.L)
          (frac * (c2.A - c1.A) + c1.A)
          (frac * (c2.B - c1.B) + c1.B)).XYZ.linearRGB.S l.Alpha))

/-- Luminance.SetMax from luminance.go (functional update). -/
def Luminance.SetMax (l : Luminance) (v : ℝ) : Luminance :=
  { l with max := v }

/-- Luminance.Max from luminance.go. -/
def Luminance.Max (l : Luminance) : ℝ := l.max

/-- Luminance.Min from luminance.go: always 0. -/
def Luminance.Min (_ : Luminance) : ℝ := 0

/-- The pair a DivergingMSH At call produces: the returned color (none for
the Go nil color) and whether the returned error is non-nil. -/
structure AtOut where
  color : Option sRGBA
  err : Prop

/-- DivergingMSH.At from the diverging source file: degenerate-domain check,
normalization (scalar - min) / max, the MSH interpolation, conversion chain,
and the check() result alongside the color. -/
def DivergingMSH.At (p : DivergingMSH) (scalar : ℝ) : AtOut :=
  if p.min = p.max then { color := none, err := True }
  else
    let s := (scalar - p.min) / p.max
    let o := (((p.interpolateMSHDiverging s).lab).XYZ.linearRGB).S p.Alpha
    { color := some o, err := o.check }

/-- DivergingMSH.SetMax from the diverging source file (functional update). -/
def DivergingMSH.SetMax (p : DivergingMSH) (v : ℝ) : DivergingMSH :=
  { p with max := v }

/-- DivergingMSH.SetMin from the diverging source file (functional update). -/
def DivergingMSH.SetMin (p : DivergingMSH) (v : ℝ) : DivergingMSH :=
  { p with min := v }

/-- DivergingMSH.Min from the diverging source file. -/
def DivergingMSH.Min (p : DivergingMSH) : ℝ := p.min

/-- DivergingMSH.Max from the diverging source file. -/
def DivergingMSH.Max (p : DivergingMSH) : ℝ := p.max

open Classical in
/-- The sampling loop inside DivergingMSH.Palette: n calls of At starting at
v and stepping by delta, collecting colors; a non-nil error from At panics,
modelled as none (no partial list). -/
def divPalLoop (p : DivergingMSH) (delta : ℝ) : ℝ → ℕ → Option (List sRGBA)
  | _, 0 => some []
  | v, Nat.succ k =>
    let r := p.At v
    if r.err then none
    else
      match r.color with
      | none => none
      | some c => (divPalLoop p delta (v + delta) k).map (fun rest => c :: rest)

/-- DivergingMSH.Palette from the diverging source file: defaults the domain
to the interval from 0 to 1 on a local copy when min and max are both 0,
then samples nColors evenly spaced scalars. -/
def DivergingMSH.Palette (p : DivergingMSH) (n : ℕ) : Option (List sRGBA) :=
  let p' := if p.max = 0 ∧ p.min = 0 then { p with min := 0, max := 1 } else p
  divPalLoop p' ((p'.max - p'.min) / ((n:ℝ) - 1)) p'.min n

/-- The sampling loop inside Luminance.Palette. -/
def lumPalLoop (l : Luminance) (delta : ℝ) : ℝ → ℕ → Option (List sRGBA)
  | _, 0 => some []
  | v, Nat.succ k =>
    match l.At v with
    | none => none
    | some c => (lumPalLoop l delta (v + delta) k).map (fun rest => c :: rest)

/-- Luminance.Palette from luminance.go: defaults max to 1 on a local copy
when it is 0, then samples nColors scalars from 0 stepping by
max/(nColors-1). -/
def Luminance.Palette (l : Luminance) (n : ℕ) : Option (List sRGBA) :=
  let l' := if l.max = 0 then { l with max := 1 } else l
  lumPalLoop l' (l'.max / ((n:ℝ) - 1)) 0 n

/-- C1: for every DivergingMSH color map with ConvergePoint strictly between
0 and 1, interpolateMSHDiverging evaluated exactly at the convergence point
yields the MSH value {M = ConvergeM, S = 0, H = 0}, regardless of the start
and end colors. -/
theorem interpolateMSHDiverging_at_convergePoint (p : DivergingMSH)
    (h0 : 0 < p.ConvergePoint) (h1 : p.ConvergePoint < 1) :
    p.interpolateMSHDiverging p.ConvergePoint =
      { M := p.ConvergeM, S := 0, H := 0 } := by
  have hc1 : p.ConvergePoint - 1 ≠ 0 := sub_ne_zero.mpr (ne_of_lt h1)
  have hc0 : p.ConvergePoint ≠ 0 := ne_of_gt h0
  simp only [DivergingMSH.interpolateMSHDiverging, lt_irrefl, if_false,
    div_self hc1, div_self hc0, MSH.mk.injEq]
  exact ⟨by ring, by ring, trivial⟩

/-- Witness for C1 at a concrete color map: the SmoothBlueRed endpoints with
the default ConvergePoint 0.5 and ConvergeM 88. -/
theorem interpolateMSHDiverging_at_convergePoint_witness :
    (0:ℝ) < 0.5 ∧ (0.5:ℝ) < 1 ∧
    (NewDivergingMSH ⟨80, 1.08, -1.1⟩ ⟨80, 1.08, 0.5⟩).interpolateMSHDiverging 0.5 =
      { M := 88, S := 0, H := 0 } := by
  refine ⟨by norm_num, by norm_num, ?_⟩
  have h := interpolateMSHDiverging_at_convergePoint
    (NewDivergingMSH ⟨80, 1.08, -1.1⟩ ⟨80, 1.08, 0.5⟩)
    (by norm_num [NewDivergingMSH]) (by norm_num [NewDivergingMSH])
  simpa [NewDivergingMSH] using h

/-- C4: for every DivergingMSH color map and every t < ConvergePoint, with
interp = t / ConvergePoint, interpolateMSHDiverging t returns
M = start.M + (ConvergeM - start.M)·interp, S = start.S·(1 - interp), and
H = start.H + hueTwist(start, ConvergeM)·interp, where the hue twist is
sign(start.H) · start.S · sqrt(ConvergeM² - start.M²) / (start.M · sin start.S)
(the sign being well defined for start.H ≠ 0). -/
theorem interpolateMSHDiverging_below_convergePoint (p : DivergingMSH) (t : ℝ)
    (ht : t < p.ConvergePoint) (hH : p.start.H ≠ 0) :
    p.interpolateMSHDiverging t =
      { M := p.start.M + (p.ConvergeM - p.start.M) * (t / p.ConvergePoint)
        S := p.start.S * (1 - t / p.ConvergePoint)
        H := p.start.H +
          Real.sign p.start.H * p.start.S *
            Real.sqrt (p.ConvergeM * p.ConvergeM - p.start.M * p.start.M) /
            (p.start.M * Real.sin p.start.S) * (t / p.ConvergePoint) } := by
  have hsign : p.start.H / |p.start.H| = Real.sign p.start.H := by
    rcases lt_or_gt_of_ne hH with h | h
    · rw [abs_of_neg h, div_neg, div_self (ne_of_lt h), Real.sign_of_neg h]
    · rw [abs_of_pos h, div_self (ne_of_gt h), Real.sign_of_pos h]
  simp only [DivergingMSH.interpolateMSHDiverging, if_pos ht, hueTwist, hsign,
    MSH.mk.injEq]
  exact ⟨by ring, trivial, trivial⟩

/-- Witness for C4: the SmoothBlueRed start color at t = 0.125 with the
default convergence parameters. -/
theorem interpolateMSHDiverging_below_convergePoint_witness :
    (0.125:ℝ) < 0.5 ∧ (-1.1:ℝ) ≠ 0 ∧
    (NewDivergingMSH ⟨80, 1.08, -1.1⟩ ⟨80, 1.08, 0.5⟩).interpolateMSHDiverging 0.125 =
      { M := 80 + (88 - 80) * (0.125 / 0.5)
        S := 1.08 * (1 - 0.125 / 0.5)
        H := -1.1 + Real.sign (-1.1) * 1.08 * Real.sqrt (88 * 88 - 80 * 80) /
              (80 * Real.sin 1.08) * (0.125 / 0.5) } := by
  refine ⟨by norm_num, by norm_num, ?_⟩
  have h := interpolateMSHDiverging_below_convergePoint
    (NewDivergingMSH ⟨80, 1.08, -1.1⟩ ⟨80, 1.08, 0.5⟩) 0.125
    (by norm_num [NewDivergingMSH]) (by norm_num [NewDivergingMSH])
  simpa [NewDivergingMSH] using h

/-- C3: for every DivergingMSH color map with min ≠ max and every scalar,
At(scalar) computes t = (scalar - min) / max (dividing by max, not by
max - min) and returns the color obtained from interpolateMSHDiverging(t)
through the MSH→LAB→XYZ→linear RGB→sRGB chain with the configured Alpha. -/
theorem DivergingMSH_At_normalization (p : DivergingMSH) (scalar : ℝ)
    (h : p.min ≠ p.max) :
    (p.At scalar).color =
      some ((((p.interpolateMSHDiverging ((scalar - p.min) / p.max)).lab).XYZ.linearRGB).S
        p.Alpha) := by
  simp [DivergingMSH.At, h]

/-- Witness for C3: the SmoothBlueRed map configured with max = 1,
evaluated at scalar 0.125 as in the package's own test. -/
theorem DivergingMSH_At_normalization_witness :
    ((NewDivergingMSH ⟨80, 1.08, -1.1⟩ ⟨80, 1.08, 0.5⟩).SetMax 1).min ≠
      ((NewDivergingMSH ⟨80, 1.08, -1.1⟩ ⟨80, 1.08, 0.5⟩).SetMax 1).max ∧
    (((NewDivergingMSH ⟨80, 1.08, -1.1⟩ ⟨80, 1.08, 0.5⟩).SetMax 1).At 0.125).color =
      some ((((NewDivergingMSH ⟨80, 1.08, -1.1⟩ ⟨80, 1.08, 0.5⟩).SetMax
          1).interpolateMSHDiverging ((0.125 - 0) / 1)).lab.XYZ.linearRGB.S 1) := by
  have hne : ((NewDivergingMSH ⟨80, 1.08, -1.1⟩ ⟨80, 1.08, 0.5⟩).SetMax 1).min ≠
      ((NewDivergingMSH ⟨80, 1.08, -1.1⟩ ⟨80, 1.08, 0.5⟩).SetMax 1).max := by
    norm_num [NewDivergingMSH, DivergingMSH.SetMax]
  refine ⟨hne, ?_⟩
  have h := DivergingMSH_At_normalization
    ((NewDivergingMSH ⟨80, 1.08, -1.1⟩ ⟨80, 1.08, 0.5⟩).SetMax 1) 0.125 hne
  simpa [NewDivergingMSH, DivergingMSH.SetMax] using h

/-- C7: DivergingMSH.At returns a nil color together with an error exactly
when min = max; in every other case the computed color is always returned,
paired with an error exactly when some channel of it lies outside the
interval from 0 to 1 (the out-of-gamut color is returned alongside the
error, never withheld). -/
theorem DivergingMSH_At_error_policy (p : DivergingMSH) (scalar : ℝ) :
    ((p.At scalar).color = none ↔ p.min = p.max) ∧
    (p.min = p.max → (p.At scalar).err) ∧
    (p.min ≠ p.max → ∃ c, (p.At scalar).color = some c ∧
      ((p.At scalar).err ↔ c.check)) := by
  by_cases h : p.min = p.max
  · simp [DivergingMSH.At, h]
  · simp [DivergingMSH.At, h]

/-- Witness for C7: the instantiated statement for the configured
SmoothBlueRed map at scalar 0.125. -/
theorem DivergingMSH_At_error_policy_witness :
    ((((NewDivergingMSH ⟨80, 1.08, -1.1⟩ ⟨80, 1.08, 0.5⟩).SetMax 1).At 0.125).color =
        none ↔
      ((NewDivergingMSH ⟨80, 1.08, -1.1⟩ ⟨80, 1.08, 0.5⟩).SetMax 1).min =
        ((NewDivergingMSH ⟨80, 1.08, -1.1⟩ ⟨80, 1.08, 0.5⟩).SetMax 1).max) ∧
    ∃ c, (((NewDivergingMSH ⟨80, 1.08, -1.1⟩ ⟨80, 1.08, 0.5⟩).SetMax 1).At 0.125).color =
        some c ∧
      ((((NewDivergingMSH ⟨80, 1.08, -1.1⟩ ⟨80, 1.08, 0.5⟩).SetMax 1).At 0.125).err ↔
        c.check) := by
  have h := DivergingMSH_At_error_policy
    ((NewDivergingMSH ⟨80, 1.08, -1.1⟩ ⟨80, 1.08, 0.5⟩).SetMax 1) 0.125
  exact ⟨h.1, h.2.2 (by norm_num [NewDivergingMSH, DivergingMSH.SetMax])⟩

/-- C5: NewLuminance returns an error and no usable map exactly when some
control color's luminance fails to strictly exceed its predecessor's; on
success it stores scalars[i] = (L - Lmin)/(Lmax - Lmin) and then forces
scalars[0] = 0 and scalars[last] = 1 (in that order). -/
theorem NewLuminance_spec (cs : List GoColor) (h : cs ≠ []) :
    (NewLuminance cs = none ↔
      ∃ i, i + 1 < (controlLABs cs).length ∧
        ((controlLABs cs).getD (i + 1) ⟨0, 0, 0⟩).L ≤
          ((controlLABs cs).getD i ⟨0, 0, 0⟩).L) ∧
    ∀ lum, NewLuminance cs = some lum →
      lum.scalars =
        (((controlLABs cs).map (fun c =>
            (c.L - lumLmin (controlLABs cs)) /
              (lumLmax (controlLABs cs) - lumLmin (controlLABs cs)))).set 0 0).set
          ((controlLABs cs).length - 1) 1 := by
  match cs, h with
  | c0 :: cs', _ =>
  have key : ¬ List.Chain' (fun a b => a.L < b.L) (controlLABs (c0 :: cs')) ↔
      ∃ i, i + 1 < (controlLABs (c0 :: cs')).length ∧
        ((controlLABs (c0 :: cs')).getD (i + 1) ⟨0, 0, 0⟩).L ≤
          ((controlLABs (c0 :: cs')).getD i ⟨0, 0, 0⟩).L := by
    rw [List.chain'_iff_get]
    push_neg
    constructor
    · rintro ⟨i, hi, hR⟩
      refine ⟨i, by omega, ?_⟩
      rw [List.getD_eq_getElem _ _ (by omega), List.getD_eq_getElem _ _ (by omega)]
      simpa [List.get_eq_getElem] using hR
    · rintro ⟨i, hi, hle⟩
      refine ⟨i, by omega, ?_⟩
      rw [List.getD_eq_getElem _ _ (by omega), List.getD_eq_getElem _ _ (by omega)] at hle
      simpa [List.get_eq_getElem] using hle
  by_cases hc : List.Chain' (fun a b => a.L < b.L) (controlLABs (c0 :: cs'))
  · refine ⟨iff_of_false (by simp [NewLuminance, hc]) (fun hex => key.mpr hex hc), ?_⟩
    intro lum hl
    simp only [NewLuminance, if_pos hc, Option.some.injEq] at hl
    subst hl
    simp [List.length_map]
  · refine ⟨iff_of_true (by simp [NewLuminance, hc]) (key.mp hc), ?_⟩
    intro lum hl
    simp [NewLuminance, hc] at hl

/-- Witness for C5: two identical control colors (equal luminance) make
NewLuminance fail. -/
theorem NewLuminance_spec_witness :
    NewLuminance [⟨65535, 0, 0, 65535⟩, ⟨65535, 0, 0, 65535⟩] = none := by
  have h := (NewLuminance_spec [⟨65535, 0, 0, 65535⟩, ⟨65535, 0, 0, 65535⟩]
    (by simp)).1
  exact h.mpr ⟨0, by simp [controlLABs], by simp [controlLABs]⟩

/-- C6: Luminance.At returns no color and an error exactly when max = 0 or
the normalized value t = scalar/max is below 0 or above 1; otherwise, at
insertion index 0 it returns the first control color converted without
clamping, and in all other cases it linearly interpolates L, A, B between
the bracketing control colors and clamps (does not validate) the converted
result. -/
theorem Luminance_At_spec (l : Luminance) (x : ℝ) :
    (l.At x = none ↔ l.max = 0 ∨ x / l.max < 0 ∨ 1 < x / l.max) ∧
    (l.max ≠ 0 → ¬(x / l.max < 0 ∨ 1 < x / l.max) →
      let s := x / l.max
      let i := searchF64s l.scalars s
      let c1 := l.colors.getD (i - 1) ⟨0, 0, 0⟩
      let c2 := l.colors.getD i ⟨0, 0, 0⟩
      let frac := (s - l.scalars.getD (i - 1) 0) /
        (l.scalars.getD i 0 - l.scalars.getD (i - 1) 0)
      (i = 0 → l.At x = some ((l.colors.getD 0 ⟨0, 0, 0⟩).XYZ.linearRGB.S l.Alpha)) ∧
      (i ≠ 0 → l.At x = some (sRGBA.fix ((cieLAB.mk (frac * (c2.L - c1.L) + c1.L)
        (frac * (c2.A - c1.A) + c1.A)
        (frac * (c2.B - c1.B) + c1.B)).XYZ.linearRGB.S l.Alpha)))) := by
  constructor
  · by_cases hm : l.max = 0
    · simp [Luminance.At, hm]
    · by_cases hr : x / l.max < 0 ∨ 1 < x / l.max
      · simp [Luminance.At, hm, hr]
      · by_cases hi : searchF64s l.scalars (x / l.max) = 0 <;>
          simp [Luminance.At, hm, hr, hi]
  · intro hm hr
    by_cases hi : searchF64s l.scalars (x / l.max) = 0
    · simp [Luminance.At, hm, hr, hi]
    · simp [Luminance.At, hm, hr, hi]

/-- Witness for C6: a two-control-color map with max = 1 evaluated at 0.5;
the insertion index is 1 so the interpolated, clamped branch is taken. -/
theorem Luminance_At_spec_witness :
    (1:ℝ) ≠ 0 ∧ ¬((0.5:ℝ) / 1 < 0 ∨ 1 < (0.5:ℝ) / 1) ∧
    searchF64s [0, 1] ((0.5:ℝ) / 1) ≠ 0 ∧
    Luminance.At ⟨[⟨0, 0, 0⟩, ⟨100, 0, 0⟩], [0, 1], 1, 1⟩ 0.5 =
      some (sRGBA.fix ((cieLAB.mk 50 0 0).XYZ.linearRGB.S 1)) := by
  have hi : searchF64s [0, 1] ((0.5:ℝ) / 1) ≠ 0 := by norm_num [searchF64s]
  refine ⟨by norm_num, by norm_num, hi, ?_⟩
  have h := ((Luminance_At_spec ⟨[⟨0, 0, 0⟩, ⟨100, 0, 0⟩], [0, 1], 1, 1⟩ 0.5).2
    (by norm_num) (by norm_num)).2 (by norm_num [searchF64s])
  norm_num [searchF64s] at h
  convert h using 4
  norm_num

/-- When At reports no error its color is always some value. -/
lemma DivergingMSH_At_color_isSome (p : DivergingMSH) (v : ℝ)
    (h : ¬ (p.At v).err) : ∃ c, (p.At v).color = some c := by
  by_cases hm : p.min = p.max
  · exact absurd (by simp [DivergingMSH.At, hm]) h
  · exact ⟨(p.interpolateMSHDiverging ((v - p.min) / p.max)).lab.XYZ.linearRGB.S p.Alpha,
      by simp [DivergingMSH.At, hm]⟩

/-- The diverging sampling loop fails exactly when some sample errs. -/
lemma divPalLoop_none_iff (p : DivergingMSH) (delta : ℝ) :
    ∀ (n : ℕ) (v : ℝ), (divPalLoop p delta v n = none ↔
      ∃ i, i < n ∧ (p.At (v + i * delta)).err) := by
  intro n
  induction n with
  | zero => intro v; simp [divPalLoop]
  | succ k ih =>
    intro v
    by_cases he : (p.At v).err
    · simp only [divPalLoop, if_pos he]
      refine iff_of_true ?_ ⟨0, Nat.succ_pos k, by simpa using he⟩
      first
      | rfl
      | trivial
    · obtain ⟨c, hc⟩ := DivergingMSH_At_color_isSome p v he
      simp only [divPalLoop, if_neg he, hc]
      rw [Option.map_eq_none', ih (v + delta)]
      constructor
      · rintro ⟨i, hi, hie⟩
        refine ⟨i + 1, by omega, ?_⟩
        have harg : v + (↑(i + 1):ℝ) * delta = v + delta + (i:ℝ) * delta := by
          push_cast; ring
        rw [harg]; exact hie
      · rintro ⟨i, hi, hie⟩
        match i with
        | 0 => exact absurd (by simpa using hie) he
        | Nat.succ j =>
          refine ⟨j, by omega, ?_⟩
          have harg : v + (↑(j + 1):ℝ) * delta = v + delta + (j:ℝ) * delta := by
            push_cast; ring
          rw [harg] at hie; exact hie

/-- A successful diverging sampling loop has length n and sample i holds
At(v + i·delta). -/
lemma divPalLoop_some (p : DivergingMSH) (delta : ℝ) :
    ∀ (n : ℕ) (v : ℝ) (cl : List sRGBA), divPalLoop p delta v n = some cl →
      cl.length = n ∧ ∀ i, i < n →
        (p.At (v + i * delta)).color = some (cl.getD i ⟨0, 0, 0, 0⟩) := by
  intro n
  induction n with
  | zero =>
    intro v cl h
    simp only [divPalLoop, Option.some.injEq] at h
    subst h
    exact ⟨rfl, by omega⟩
  | succ k ih =>
    intro v cl h
    by_cases he : (p.At v).err
    · simp [divPalLoop, if_pos he] at h
    · obtain ⟨c, hc⟩ := DivergingMSH_At_color_isSome p v he
      simp only [divPalLoop, if_neg he, hc] at h
      rw [Option.map_eq_some'] at h
      obtain ⟨cl', hcl', rfl⟩ := h
      obtain ⟨hlen, hidx⟩ := ih (v + delta) cl' hcl'
      refine ⟨by simpa using hlen, ?_⟩
      intro i hi
      match i with
      | 0 => simpa using hc
      | Nat.succ j =>
        have harg : v + (↑(j + 1):ℝ) * delta = v + delta + (j:ℝ) * delta := by
          push_cast; ring
        rw [harg]
        simpa using hidx j (by omega)

/-- The luminance sampling loop fails exactly when some sample errs. -/
lemma lumPalLoop_none_iff (l : Luminance) (delta : ℝ) :
    ∀ (n : ℕ) (v : ℝ), (lumPalLoop l delta v n = none ↔
      ∃ i, i < n ∧ l.At (v + i * delta) = none) := by
  intro n
  induction n with
  | zero => intro v; simp [lumPalLoop]
  | succ k ih =>
    intro v
    cases hAv : l.At v with
    | none =>
      simp only [lumPalLoop, hAv]
      refine iff_of_true ?_ ⟨0, Nat.succ_pos k, by simpa using hAv⟩
      first
      | rfl
      | trivial
    | some c =>
      simp only [lumPalLoop, hAv]
      rw [Option.map_eq_none', ih (v + delta)]
      constructor
      · rintro ⟨i, hi, hie⟩
        refine ⟨i + 1, by omega, ?_⟩
        have harg : v + (↑(i + 1):ℝ) * delta = v + delta + (i:ℝ) * delta := by
          push_cast; ring
        rw [harg]; exact hie
      · rintro ⟨i, hi, hie⟩
        match i with
        | 0 =>
          rw [show v + (↑(0:ℕ):ℝ) * delta = v by push_cast; ring] at hie
          rw [hAv] at hie; cases hie
        | Nat.succ j =>
          refine ⟨j, by omega, ?_⟩
          have harg : v + (↑(j + 1):ℝ) * delta = v + delta + (j:ℝ) * delta := by
            push_cast; ring
          rw [harg] at hie; exact hie

/-- A successful luminance sampling loop has length n and sample i holds
At(v + i·delta). -/
lemma lumPalLoop_some (l : Luminance) (delta : ℝ) :
    ∀ (n : ℕ) (v : ℝ) (cl : List sRGBA), lumPalLoop l delta v n = some cl →
      cl.length = n ∧ ∀ i, i < n →
        l.At (v + i * delta) = some (cl.getD i ⟨0, 0, 0, 0⟩) := by
  intro n
  induction n with
  | zero =>
    intro v cl h
    simp only [lumPalLoop, Option.some.injEq] at h
    subst h
    exact ⟨rfl, by omega⟩
  | succ k ih =>
    intro v cl h
    cases hAv : l.At v with
    | none => simp [lumPalLoop, hAv] at h
    | some c =>
      simp only [lumPalLoop, hAv] at h
      rw [Option.map_eq_some'] at h
      obtain ⟨cl', hcl', rfl⟩ := h
      obtain ⟨hlen, hidx⟩ := ih (v + delta) cl' hcl'
      refine ⟨by simpa using hlen, ?_⟩
      intro i hi
      match i with
      | 0 => simpa using hAv
      | Nat.succ j =>
        have harg : v + (↑(j + 1):ℝ) * delta = v + delta + (j:ℝ) * delta := by
          push_cast; ring
        rw [harg]
        simpa using hidx j (by omega)

/-- C8: for every nColors ≥ 2, Palette on either color map returns exactly
nColors colors sampled at evenly spaced scalars from min to max inclusive
with step (max-min)/(nColors-1) (for Luminance from 0 with step
max/(nColors-1)); an unconfigured map defaults its domain to the interval
from 0 to 1; and any error from At during sampling is fatal — no partial
palette is ever returned. -/
theorem Palette_sampling (p : DivergingMSH) (l : Luminance) (n : ℕ) (hn : 2 ≤ n) :
    (∀ cl, p.Palette n = some cl → cl.length = n ∧ ∀ i, i < n →
      (((if p.max = 0 ∧ p.min = 0 then { p with min := 0, max := 1 } else p)).At
          ((if p.max = 0 ∧ p.min = 0 then { p with min := 0, max := 1 } else p).min +
            i * (((if p.max = 0 ∧ p.min = 0 then { p with min := 0, max := 1 } else p).max -
              (if p.max = 0 ∧ p.min = 0 then { p with min := 0, max := 1 } else p).min) /
              ((n:ℝ) - 1)))).color = some (cl.getD i ⟨0, 0, 0, 0⟩)) ∧
    (p.Palette n = none ↔ ∃ i, i < n ∧
      (((if p.max = 0 ∧ p.min = 0 then { p with min := 0, max := 1 } else p)).At
          ((if p.max = 0 ∧ p.min = 0 then { p with min := 0, max := 1 } else p).min +
            i * (((if p.max = 0 ∧ p.min = 0 then { p with min := 0, max := 1 } else p).max -
              (if p.max = 0 ∧ p.min = 0 then { p with min := 0, max := 1 } else p).min) /
              ((n:ℝ) - 1)))).err) ∧
    (if p.max = 0 ∧ p.min = 0 then { p with min := 0, max := 1 } else p).min +
        ((n:ℝ) - 1) *
        (((if p.max = 0 ∧ p.min = 0 then { p with min := 0, max := 1 } else p).max -
          (if p.max = 0 ∧ p.min = 0 then { p with min := 0, max := 1 } else p).min) /
          ((n:ℝ) - 1)) =
      (if p.max = 0 ∧ p.min = 0 then { p with min := 0, max := 1 } else p).max ∧
    (p.max = 0 ∧ p.min = 0 →
      (if p.max = 0 ∧ p.min = 0 then { p with min := 0, max := 1 } else p).min = 0 ∧
      (if p.max = 0 ∧ p.min = 0 then { p with min := 0, max := 1 } else p).max = 1) ∧
    (∀ cl, l.Palette n = some cl → cl.length = n ∧ ∀ i, i < n →
      (if l.max = 0 then { l with max := 1 } else l).At
          (0 + i * ((if l.max = 0 then { l with max := 1 } else l).max / ((n:ℝ) - 1))) =
        some (cl.getD i ⟨0, 0, 0, 0⟩)) ∧
    (l.Palette n = none ↔ ∃ i, i < n ∧
      (if l.max = 0 then { l with max := 1 } else l).At
          (0 + i * ((if l.max = 0 then { l with max := 1 } else l).max / ((n:ℝ) - 1))) =
        none) ∧
    (0:ℝ) + ((n:ℝ) - 1) *
        ((if l.max = 0 then { l with max := 1 } else l).max / ((n:ℝ) - 1)) =
      (if l.max = 0 then { l with max := 1 } else l).max ∧
    (l.max = 0 → (if l.max = 0 then { l with max := 1 } else l).max = 1) := by
  have hne : ((n:ℝ) - 1) ≠ 0 := by
    have h2 : (2:ℝ) ≤ (n:ℝ) := by exact_mod_cast hn
    intro hz
    rw [sub_eq_zero] at hz
    rw [hz] at h2
    norm_num at h2
  refine ⟨?_, ?_, ?_, ?_, ?_, ?_, ?_, ?_⟩
  · intro cl h
    exact divPalLoop_some _ _ n _ cl h
  · exact divPalLoop_none_iff _ _ n _
  · rw [mul_comm, div_mul_cancel₀ _ hne]; ring
  · intro hz
    rw [if_pos ⟨hz.1, hz.2⟩]
    exact ⟨rfl, rfl⟩
  · intro cl h
    exact lumPalLoop_some _ _ n _ cl h
  · exact lumPalLoop_none_iff _ _ n _
  · rw [mul_comm, div_mul_cancel₀ _ hne, zero_add]
  · intro hz
    rw [if_pos hz]

/-- Witness for C8: both maps unconfigured, n = 2; the endpoint equation and
the luminance defaulting are evaluated at the instance. -/
theorem Palette_sampling_witness :
    2 ≤ 2 ∧
    ((0:ℝ) + ((2:ℝ) - 1) *
        ((if (0:ℝ) = 0 then
            { Luminance.mk [⟨0, 0, 0⟩, ⟨100, 0, 0⟩] [0, 1] 1 0 with max := 1 }
          else Luminance.mk [⟨0, 0, 0⟩, ⟨100, 0, 0⟩] [0, 1] 1 0).max / ((2:ℝ) - 1)) =
      (if (0:ℝ) = 0 then
          { Luminance.mk [⟨0, 0, 0⟩, ⟨100, 0, 0⟩] [0, 1] 1 0 with max := 1 }
        else Luminance.mk [⟨0, 0, 0⟩, ⟨100, 0, 0⟩] [0, 1] 1 0).max) := by
  have h := Palette_sampling (NewDivergingMSH ⟨80, 1.08, -1.1⟩ ⟨80, 1.08, 0.5⟩)
    (Luminance.mk [⟨0, 0, 0⟩, ⟨100, 0, 0⟩] [0, 1] 1 0) 2 (by norm_num)
  exact ⟨by norm_num, h.2.2.2.2.2.2.1⟩

/-- C10: Palette never modifies the map it is called on: the defaulting of
an unconfigured domain happens on a local copy only, so Min and Max still
report the pre-call values and a direct At call still fails with the
degenerate-domain error. -/
theorem Palette_no_mutation (p : DivergingMSH) (l : Luminance) (s : ℝ) (n : ℕ)
    (hp1 : p.min = 0) (hp2 : p.max = 0) (hl : l.max = 0) :
    p.Palette n = divPalLoop { p with min := 0, max := 1 }
        (((1:ℝ) - 0) / ((n:ℝ) - 1)) 0 n ∧
    (p.At s).color = none ∧ p.Min = 0 ∧ p.Max = 0 ∧
    l.Palette n = lumPalLoop { l with max := 1 } ((1:ℝ) / ((n:ℝ) - 1)) 0 n ∧
    l.At s = none ∧ Luminance.Min l = 0 ∧ l.Max = 0 := by
  refine ⟨?_, ?_, hp1, hp2, ?_, ?_, rfl, hl⟩
  · simp only [DivergingMSH.Palette, if_pos (And.intro hp2 hp1)]
  · simp [DivergingMSH.At, hp1, hp2]
  · simp only [Luminance.Palette, if_pos hl]
  · simp [Luminance.At, hl]

/-- Witness for C10: a concrete unconfigured diverging map and luminance map;
after Palette the accessors still report zero and At still fails. -/
theorem Palette_no_mutation_witness :
    ((NewDivergingMSH ⟨80, 1.08, -1.1⟩ ⟨80, 1.08, 0.5⟩).At 0.25).color = none ∧
    (NewDivergingMSH ⟨80, 1.08, -1.1⟩ ⟨80, 1.08, 0.5⟩).Min = 0 ∧
    (NewDivergingMSH ⟨80, 1.08, -1.1⟩ ⟨80, 1.08, 0.5⟩).Max = 0 ∧
    Luminance.At (Luminance.mk [⟨0, 0, 0⟩, ⟨100, 0, 0⟩] [0, 1] 1 0) 0.25 = none := by
  have h := Palette_no_mutation (NewDivergingMSH ⟨80, 1.08, -1.1⟩ ⟨80, 1.08, 0.5⟩)
    (Luminance.mk [⟨0, 0, 0⟩, ⟨100, 0, 0⟩] [0, 1] 1 0) 0.25 3 rfl rfl rfl
  exact ⟨h.2.1, h.2.2.1, h.2.2.2.1, h.2.2.2.2.2.1⟩

/-- The spec's phrase "within the sRGB gamut" for a CIELAB value: its sRGB
conversion (at alpha 1) has every channel between 0 and 1. -/
def cieLAB.inGamut (c : cieLAB) : Prop :=
  0 ≤ (c.sRGB 1).R ∧ (c.sRGB 1).R ≤ 1 ∧
  0 ≤ (c.sRGB 1).G ∧ (c.sRGB 1).G ≤ 1 ∧
  0 ≤ (c.sRGB 1).B ∧ (c.sRGB 1).B ≤ 1 ∧
  0 ≤ (c.sRGB 1).A ∧ (c.sRGB 1).A ≤ 1

/-- The gamma encoder maps the interval (0.0031308, 1] into the interval
from 0 to 1. -/
lemma linearToS_mem01 (v : ℝ) (h1 : 0.0031308 < v) (h2 : v ≤ 1) :
    0 ≤ linearToS v ∧ linearToS v ≤ 1 := by
  have hv0 : (0:ℝ) < v := lt_trans (by norm_num) h1
  unfold linearToS
  rw [if_pos h1]
  constructor
  · have hsq : Real.sqrt v ≤ v ^ ((1:ℝ)/2.4) := by
      rw [Real.sqrt_eq_rpow]
      exact Real.rpow_le_rpow_of_exponent_ge hv0 h2 (by norm_num)
    have hs : (0.055/1.055 : ℝ) ≤ Real.sqrt v := by
      rw [Real.le_sqrt' (by norm_num)]
      calc ((0.055/1.055 : ℝ)) ^ 2 ≤ 0.0031308 := by norm_num
        _ ≤ v := le_of_lt h1
    nlinarith [hsq, hs]
  · have hup : v ^ ((1:ℝ)/2.4) ≤ 1 :=
      Real.rpow_le_one (le_of_lt hv0) h2 (by norm_num)
    nlinarith [hup]

/-- C2 counterexample: the CIELAB value (5, 1, 0) lies inside the sRGB gamut,
yet the round trip LAB→XYZ→LAB moves its A component by more than 1e-6
(the XYZ→LAB direction normalizes by 0.9505/1.089 while LAB→XYZ uses
0.95047/1.08883). -/
theorem LAB_roundtrip_not_within_1e6 :
    cieLAB.inGamut ⟨5, 1, 0⟩ ∧
    1e-6 < |((cieLAB.mk 5 1 0).XYZ.LAB).A - (cieLAB.mk 5 1 0).A| := by
  have hXYZ : (cieLAB.mk 5 1 0).XYZ =
      cieXYZ.mk (0.95047 * ((1/500 + (5 + 16)/116 - 16/116)/7.787))
        (1.0 * (((5 + 16)/116 - 16/116)/7.787))
        (1.08883 * (((5 + 16)/116 - 16/116)/7.787)) := by
    simp only [cieLAB.XYZ, xyzTemp]
    norm_num
  constructor
  · have hR : 0.0031308 < ((cieLAB.mk 5 1 0).XYZ.linearRGB).R ∧
        ((cieLAB.mk 5 1 0).XYZ.linearRGB).R ≤ 1 := by
      rw [hXYZ]
      norm_num [cieXYZ.linearRGB]
    have hG : 0.0031308 < ((cieLAB.mk 5 1 0).XYZ.linearRGB).G ∧
        ((cieLAB.mk 5 1 0).XYZ.linearRGB).G ≤ 1 := by
      rw [hXYZ]
      norm_num [cieXYZ.linearRGB]
    have hB : 0.0031308 < ((cieLAB.mk 5 1 0).XYZ.linearRGB).B ∧
        ((cieLAB.mk 5 1 0).XYZ.linearRGB).B ≤ 1 := by
      rw [hXYZ]
      norm_num [cieXYZ.linearRGB]
    unfold cieLAB.inGamut cieLAB.sRGB linearRGB.S
    exact ⟨(linearToS_mem01 _ hR.1 hR.2).1, (linearToS_mem01 _ hR.1 hR.2).2,
      (linearToS_mem01 _ hG.1 hG.2).1, (linearToS_mem01 _ hG.1 hG.2).2,
      (linearToS_mem01 _ hB.1 hB.2).1, (linearToS_mem01 _ hB.1 hB.2).2,
      by norm_num, by norm_num⟩
  · have hA : ((cieLAB.mk 5 1 0).XYZ.LAB).A < 1 - 1e-6 := by
      rw [hXYZ]
      simp only [cieXYZ.LAB, labTemp]
      norm_num
    have hlt : ((cieLAB.mk 5 1 0).XYZ.LAB).A - (cieLAB.mk 5 1 0).A < 0 := by
      have : (cieLAB.mk 5 1 0).A = 1 := rfl
      rw [this]
      linarith
    rw [abs_of_neg hlt]
    have : (cieLAB.mk 5 1 0).A = 1 := rfl
    rw [this]
    linarith

/-- C2 amended: in exact real arithmetic the XYZ→LAB→XYZ round trip recovers
the Y component exactly for every CIEXYZ value, and the LAB→XYZ→LAB round
trip recovers the L component exactly whenever (L+16)/116 is at most the
threshold 7.787·0.008856 + 16/116 or its cube exceeds 0.008856; the
A/B (and X/Z) components are in general not recovered within 1e-6 because
of the mismatched white points. -/
theorem roundtrip_exact_components :
    (∀ x : cieXYZ, ((x.LAB).XYZ).Y = x.Y) ∧
    (∀ c : cieLAB, ((c.L + 16)/116 ≤ 7.787 * 0.008856 + 16/116 ∨
        0.008856 < ((c.L + 16)/116)^(3:ℕ)) →
      ((c.XYZ).LAB).L = c.L) := by
  constructor
  · intro x
    simp only [cieXYZ.LAB, cieLAB.XYZ]
    have harg : (116 * labTemp x.Y - 16 + 16)/116 = labTemp x.Y := by ring
    rw [harg]
    by_cases hY : (0.008856:ℝ) < x.Y
    · have hY0 : (0:ℝ) < x.Y := lt_trans (by norm_num) hY
      rw [labTemp, if_pos hY]
      have hcube : (x.Y ^ ((1:ℝ)/3)) ^ (3:ℕ) = x.Y := by
        rw [← Real.rpow_natCast (x.Y ^ ((1:ℝ)/3)) 3, ← Real.rpow_mul (le_of_lt hY0)]
        norm_num
      have hbranch : (7.787 * 0.008856 + 16/116 : ℝ) < x.Y ^ ((1:ℝ)/3) := by
        refine lt_of_pow_lt_pow_left₀ 3 (Real.rpow_nonneg (le_of_lt hY0) _) ?_
        rw [hcube]
        calc (7.787 * 0.008856 + 16/116 : ℝ) ^ (3:ℕ) < 0.008856 := by norm_num
          _ < x.Y := hY
      rw [xyzTemp, if_pos hbranch]
      have : x.Y ^ ((1:ℝ)/3) * x.Y ^ ((1:ℝ)/3) * x.Y ^ ((1:ℝ)/3) =
          (x.Y ^ ((1:ℝ)/3)) ^ (3:ℕ) := by ring
      rw [this, hcube]
      norm_num
    · rw [labTemp, if_neg hY]
      have hbranch : ¬ (7.787 * 0.008856 + 16/116 : ℝ) < 7.787 * x.Y + 16/116 := by
        push_neg at hY ⊢
        nlinarith [hY]
      rw [xyzTemp, if_neg hbranch]
      have h7 : (7.787:ℝ) ≠ 0 := by norm_num
      field_simp
      norm_num
  · intro c hc
    simp only [cieLAB.XYZ, cieXYZ.LAB]
    rcases hc with hc | hc
    · rw [xyzTemp, if_neg (not_lt.mpr hc)]
      have hsmall : ¬ (0.008856:ℝ) < 1.0 * (((c.L + 16)/116 - 16/116)/7.787) := by
        push_neg
        have hz : ((c.L + 16)/116 - 16/116)/7.787 ≤ 0.008856 := by
          rw [div_le_iff₀ (by norm_num)]
          linarith
        calc (1.0:ℝ) * (((c.L + 16)/116 - 16/116)/7.787)
            = ((c.L + 16)/116 - 16/116)/7.787 := by norm_num
          _ ≤ 0.008856 := hz
      rw [labTemp, if_neg hsmall]
      ring
    · have hu0 : (0:ℝ) < (c.L + 16)/116 := by
        by_contra hneg
        push_neg at hneg
        have hcub : ((c.L + 16)/116)^(3:ℕ) ≤ 0 := by
          nlinarith [sq_nonneg ((c.L + 16)/116), hneg]
        nlinarith [hc, hcub]
      have hbig : (7.787 * 0.008856 + 16/116 : ℝ) < (c.L + 16)/116 := by
        refine lt_of_pow_lt_pow_left₀ 3 (le_of_lt hu0) ?_
        calc (7.787 * 0.008856 + 16/116 : ℝ) ^ (3:ℕ) < 0.008856 := by norm_num
          _ < ((c.L + 16)/116) ^ (3:ℕ) := hc
      rw [xyzTemp, if_pos hbig]
      have hcube : (0.008856:ℝ) <
          1.0 * ((c.L + 16)/116 * ((c.L + 16)/116) * ((c.L + 16)/116)) := by
        calc (0.008856:ℝ) < ((c.L + 16)/116) ^ (3:ℕ) := hc
          _ = 1.0 * ((c.L + 16)/116 * ((c.L + 16)/116) * ((c.L + 16)/116)) := by
              ring
      rw [labTemp, if_pos hcube]
      have hroot : (1.0 * ((c.L + 16)/116 * ((c.L + 16)/116) * ((c.L + 16)/116)))
          ^ ((1:ℝ)/3) = (c.L + 16)/116 := by
        rw [show (1.0:ℝ) * ((c.L + 16)/116 * ((c.L + 16)/116) * ((c.L + 16)/116)) =
          ((c.L + 16)/116) ^ (3:ℕ) by ring, ← Real.rpow_natCast ((c.L + 16)/116) 3,
          ← Real.rpow_mul (le_of_lt hu0)]
        norm_num
      rw [hroot]
      ring

/-- Witness for the amended C2 at concrete values: black (the origin) round
trips exactly in the Y and L components. -/
theorem roundtrip_exact_components_witness :
    (((cieXYZ.mk 0 0 0).LAB).XYZ).Y = 0 ∧ (((cieLAB.mk 0 0 0).XYZ).LAB).L = 0 := by
  have h := roundtrip_exact_components
  exact ⟨h.1 (cieXYZ.mk 0 0 0), h.2 (cieLAB.mk 0 0 0) (Or.inl (by norm_num))⟩

/-!
NaN-propagation model.  float64 values are modelled as Option ℝ: some x is a
finite value and none is IEEE NaN.  Arithmetic propagates none; 0/0 produces
none; comparisons against none are false, as for NaN.  The diverging
pipeline is re-translated from the same Go source over this carrier to
settle the claim about hueTwist at H = 0.
-/

/-- A float64 value: some x is finite, none is NaN. -/
abbrev FP : Type := Option ℝ

/-- NaN-propagating addition. -/
def FP.add : FP → FP → FP
  | some x, some y => some (x + y)
  | _, _ => none

instance : Add FP := ⟨FP.add⟩

/-- NaN-propagating subtraction. -/
def FP.sub : FP → FP → FP
  | some x, some y => some (x - y)
  | _, _ => none

instance : Sub FP := ⟨FP.sub⟩

/-- NaN-propagating multiplication. -/
def FP.mul : FP → FP → FP
  | some x, some y => some (x * y)
  | _, _ => none

instance : Mul FP := ⟨FP.mul⟩

/-- NaN-propagating division; a zero divisor yields NaN (on the claim's code
path the only zero divisor is the 0/0 in hueTwist, which is NaN in IEEE). -/
def FP.div : FP → FP → FP
  | some x, some y => if y = 0 then none else some (x / y)
  | _, _ => none

instance : Div FP := ⟨FP.div⟩

/-- math.Sqrt: NaN on NaN or negative input. -/
def FP.sqrt : FP → FP
  | some x => if x < 0 then none else some (Real.sqrt x)
  | none => none

/-- math.Sin. -/
def FP.sin : FP → FP
  | some x => some (Real.sin x)
  | none => none

/-- math.Cos. -/
def FP.cos : FP → FP
  | some x => some (Real.cos x)
  | none => none

/-- math.Abs (abs of NaN is NaN). -/
def FP.abs : FP → FP
  | some x => some |x|
  | none => none

/-- math.Pow with a real exponent (NaN base gives NaN; only applied to
positive bases on the claim's path). -/
def FP.pow : FP → ℝ → FP
  | some x, e => some (x ^ e)
  | none, _ => none

/-- IEEE comparison: false whenever either side is NaN. -/
def FP.lt : FP → FP → Prop
  | some x, some y => x < y
  | _, _ => False

instance : LT FP := ⟨FP.lt⟩

@[simp] lemma FP.add_some_some (x y : ℝ) : (some x + some y : FP) = some (x + y) := rfl
@[simp] lemma FP.none_add (a : FP) : ((none : FP) + a) = none := by cases a <;> rfl
@[simp] lemma FP.add_none (a : FP) : (a + (none : FP)) = none := by cases a <;> rfl
@[simp] lemma FP.sub_some_some (x y : ℝ) : (some x - some y : FP) = some (x - y) := rfl
@[simp] lemma FP.none_sub (a : FP) : ((none : FP) - a) = none := by cases a <;> rfl
@[simp] lemma FP.sub_none (a : FP) : (a - (none : FP)) = none := by cases a <;> rfl
@[simp] lemma FP.mul_some_some (x y : ℝ) : (some x * some y : FP) = some (x * y) := rfl
@[simp] lemma FP.none_mul (a : FP) : ((none : FP) * a) = none := by cases a <;> rfl
@[simp] lemma FP.mul_none (a : FP) : (a * (none : FP)) = none := by cases a <;> rfl
@[simp] lemma FP.div_some_some (x y : ℝ) :
    (some x / some y : FP) = if y = 0 then none else some (x / y) := rfl
@[simp] lemma FP.none_div (a : FP) : ((none : FP) / a) = none := by cases a <;> rfl
@[simp] lemma FP.div_none (a : FP) : (a / (none : FP)) = none := by cases a <;> rfl
@[simp] lemma FP.sqrt_none : FP.sqrt none = none := rfl
@[simp] lemma FP.sqrt_some (x : ℝ) :
    FP.sqrt (some x) = if x < 0 then none else some (Real.sqrt x) := rfl
@[simp] lemma FP.sin_none : FP.sin none = none := rfl
@[simp] lemma FP.sin_some (x : ℝ) : FP.sin (some x) = some (Real.sin x) := rfl
@[simp] lemma FP.cos_none : FP.cos none = none := rfl
@[simp] lemma FP.cos_some (x : ℝ) : FP.cos (some x) = some (Real.cos x) := rfl
@[simp] lemma FP.abs_some (x : ℝ) : FP.abs (some x) = some |x| := rfl
@[simp] lemma FP.pow_none (e : ℝ) : FP.pow none e = none := rfl
@[simp] lemma FP.lt_some_some (x y : ℝ) : ((some x : FP) < some y) ↔ x < y := Iff.rfl
@[simp] lemma FP.not_none_lt (a : FP) : ¬ ((none : FP) < a) := by
  cases a <;> exact fun h => h
@[simp] lemma FP.not_lt_none (a : FP) : ¬ (a < (none : FP)) := by
  cases a <;> exact fun h => h

/-- MSH color over NaN-aware values. -/
structure MSHFP where
  M : FP
  S : FP
  H : FP

/-- CIELAB color over NaN-aware values. -/
structure cieLABFP where
  L : FP
  A : FP
  B : FP

/-- CIEXYZ color over NaN-aware values. -/
structure cieXYZFP where
  X : FP
  Y : FP
  Z : FP

/-- Linear RGB color over NaN-aware values. -/
structure linearRGBFP where
  R : FP
  G : FP
  B : FP

/-- sRGBA color over NaN-aware values. -/
structure sRGBAFP where
  R : FP
  G : FP
  B : FP
  A : FP

/-- hueTwist from convert.go over NaN-aware values. -/
def hueTwistFP (c : MSHFP) (convergeM : FP) : FP :=
  let signH := c.H / FP.abs c.H
  signH * c.S * FP.sqrt (convergeM * convergeM - c.M * c.M) / (c.M * FP.sin c.S)

open Classical in
/-- interpolateMSHDiverging over NaN-aware values; the map's fields are
finite float64 values and are injected with some. -/
def interpolateMSHDivergingFP (p : DivergingMSH) (scalar : FP) : MSHFP :=
  let startHTwist := hueTwistFP ⟨some p.start.M, some p.start.S, some p.start.H⟩
    (some p.ConvergeM)
  let endHTwist := hueTwistFP ⟨some p.«end».M, some p.«end».S, some p.«end».H⟩
    (some p.ConvergeM)
  if scalar < some p.ConvergePoint then
    let interp := scalar / some p.ConvergePoint
    { M := (some p.ConvergeM - some p.start.M) * interp + some p.start.M
      S := some p.start.S * (some 1 - interp)
      H := some p.start.H + startHTwist * interp }
  else
    let interp1 := (scalar - some 1) / (some p.ConvergePoint - some 1)
    let interp2 := scalar / some p.ConvergePoint - some 1
    let H := if some p.ConvergePoint < scalar then
        some p.«end».H + endHTwist * interp1
      else some 0
    { M := (some p.ConvergeM - some p.«end».M) * interp1 + some p.«end».M
      S := some p.«end».S * interp2
      H := H }

/-- MSH.lab from convert.go over NaN-aware values. -/
def MSHFP.lab (c : MSHFP) : cieLABFP :=
  { L := c.M * FP.cos c.S
    A := c.M * FP.sin c.S * FP.cos c.H
    B := c.M * FP.sin c.S * FP.sin c.H }

open Classical in
/-- xyzTemp from convert.go over NaN-aware values. -/
def xyzTempFP (v : FP) : FP :=
  if some (7.787 * 0.008856 + 16/116) < v then v * v * v
  else (v - some (16/116)) / some 7.787

/-- cieLAB.XYZ from convert.go over NaN-aware values. -/
def cieLABFP.XYZ (c : cieLABFP) : cieXYZFP :=
  { X := some 0.95047 * xyzTempFP (c.A / some 500 + (c.L + some 16) / some 116)
    Y := some 1.0 * xyzTempFP ((c.L + some 16) / some 116)
    Z := some 1.08883 * xyzTempFP ((c.L + some 16) / some 116 - c.B / some 200) }

/-- cieXYZ.linearRGB from convert.go over NaN-aware values. -/
def cieXYZFP.linearRGB (c : cieXYZFP) : linearRGBFP :=
  { R := c.X * some 3.2406 + c.Y * some (-1.5372) + c.Z * some (-0.4986)
    G := c.X * some (-0.9689) + c.Y * some 1.8758 + c.Z * some 0.0415
    B := c.X * some 0.0557 + c.Y * some (-0.204) + c.Z * some 1.057 }

open Classical in
/-- linearToS from convert.go over NaN-aware values. -/
def linearToSFP (v : FP) : FP :=
  if some 0.0031308 < v then some 1.055 * FP.pow v ((1:ℝ)/2.4) - some 0.055
  else some 12.92 * v

/-- linearRGB.S from convert.go over NaN-aware values. -/
def linearRGBFP.S (c : linearRGBFP) (alpha : FP) : sRGBAFP :=
  { R := linearToSFP c.R, G := linearToSFP c.G, B := linearToSFP c.B, A := alpha }

/-- sRGBA.check from convert.go over NaN-aware values: out-of-range test
whose comparisons are all false on NaN channels. -/
def sRGBAFP.check (c : sRGBAFP) : Prop :=
  some 1 < c.R ∨ some 1 < c.G ∨ some 1 < c.B ∨ some 1 < c.A ∨
  c.R < some 0 ∨ c.G < some 0 ∨ c.B < some 0 ∨ c.A < some 0

/-- The NaN-aware result of DivergingMSH.At. -/
structure AtOutFP where
  color : Option sRGBAFP
  err : Prop

/-- DivergingMSH.At over NaN-aware values. -/
def DivergingMSH.AtFP (p : DivergingMSH) (scalar : ℝ) : AtOutFP :=
  if p.min = p.max then { color := none, err := True }
  else
    let s := (some scalar - some p.min) / some p.max
    let o := linearRGBFP.S
      (cieXYZFP.linearRGB (cieLABFP.XYZ (MSHFP.lab (interpolateMSHDivergingFP p s))))
      (some p.Alpha)
    { color := some o, err := sRGBAFP.check o }

/-- C9: for a DivergingMSH map whose start color has hue exactly 0 (alpha in
range, min ≠ max), At at any scalar normalizing to 0 < t < ConvergePoint
returns a color whose R, G, B channels are NaN together with a nil error:
hueTwist computes H/|H| = 0/0 = NaN, the NaN propagates through the
MSH→LAB→XYZ→RGB chain, and check() does not detect NaN because NaN compares
false against both bounds. -/
theorem DivergingMSH_AtFP_nan (p : DivergingMSH) (s : ℝ)
    (hH : p.start.H = 0) (hA0 : 0 ≤ p.Alpha) (hA1 : p.Alpha ≤ 1)
    (hne : p.min ≠ p.max)
    (ht0 : 0 < (s - p.min) / p.max) (ht1 : (s - p.min) / p.max < p.ConvergePoint) :
    (p.AtFP s).color = some ⟨none, none, none, some p.Alpha⟩ ∧
    ¬ (p.AtFP s).err := by
  have hmax : p.max ≠ 0 := by
    intro h
    rw [h, div_zero] at ht0
    exact lt_irrefl 0 ht0
  have hcp : 0 < p.ConvergePoint := lt_trans ht0 ht1
  have hcp0 : p.ConvergePoint ≠ 0 := ne_of_gt hcp
  have hs : ((some s - some p.min : FP) / some p.max) = some ((s - p.min) / p.max) := by
    simp [hmax]
  have hinterp : interpolateMSHDivergingFP p (some ((s - p.min) / p.max)) =
      { M := some ((p.ConvergeM - p.start.M) * ((s - p.min) / p.max / p.ConvergePoint)
          + p.start.M)
        S := some (p.start.S * (1 - (s - p.min) / p.max / p.ConvergePoint))
        H := none } := by
    simp only [interpolateMSHDivergingFP, hueTwistFP]
    rw [if_pos (show (some ((s - p.min) / p.max) : FP) < some p.ConvergePoint from ht1)]
    simp [hH, hcp0]
  have hlab : ∀ Mv Sv : ℝ, MSHFP.lab ⟨some Mv, some Sv, none⟩ =
      ⟨some (Mv * Real.cos Sv), none, none⟩ := by
    intro Mv Sv
    simp [MSHFP.lab]
  have hXYZe : ∀ Lv : ℝ, cieLABFP.XYZ ⟨some Lv, none, none⟩ =
      ⟨none, some 1.0 * xyzTempFP ((some Lv + some 16) / some 116), none⟩ := by
    intro Lv
    simp [cieLABFP.XYZ, xyzTempFP]
  have hrgb : ∀ Yv : FP, cieXYZFP.linearRGB ⟨none, Yv, none⟩ = ⟨none, none, none⟩ := by
    intro Yv
    simp [cieXYZFP.linearRGB]
  have hsrgb : linearRGBFP.S ⟨none, none, none⟩ (some p.Alpha) =
      ⟨none, none, none, some p.Alpha⟩ := by
    simp [linearRGBFP.S, linearToSFP]
  have hcheck : ¬ sRGBAFP.check ⟨none, none, none, some p.Alpha⟩ := by
    rintro (h | h | h | h | h | h | h | h)
    · exact FP.not_lt_none _ h
    · exact FP.not_lt_none _ h
    · exact FP.not_lt_none _ h
    · exact not_lt.mpr hA1 h
    · exact FP.not_none_lt _ h
    · exact FP.not_none_lt _ h
    · exact FP.not_none_lt _ h
    · exact not_lt.mpr hA0 h
  have key : (p.AtFP s).color = some ⟨none, none, none, some p.Alpha⟩ ∧
      ((p.AtFP s).err ↔ sRGBAFP.check ⟨none, none, none, some p.Alpha⟩) := by
    simp only [DivergingMSH.AtFP]
    rw [if_neg hne, hs, hinterp, hlab, hXYZe, hrgb, hsrgb]
    exact ⟨rfl, Iff.rfl⟩
  exact ⟨key.1, fun he => hcheck (key.2.mp he)⟩

/-- Witness for C9: the SmoothBlueRed-like map whose start hue is exactly 0,
with max = 1, evaluated at scalar 0.125. -/
theorem DivergingMSH_AtFP_nan_witness :
    ((((NewDivergingMSH ⟨80, 1.08, 0⟩ ⟨80, 1.08, 0.5⟩).SetMax 1).AtFP 0.125).color =
      some ⟨none, none, none, some 1⟩) ∧
    ¬ (((NewDivergingMSH ⟨80, 1.08, 0⟩ ⟨80, 1.08, 0.5⟩).SetMax 1).AtFP 0.125).err := by
  have h := DivergingMSH_AtFP_nan
    ((NewDivergingMSH ⟨80, 1.08, 0⟩ ⟨80, 1.08, 0.5⟩).SetMax 1) 0.125 rfl
    (by norm_num [NewDivergingMSH, DivergingMSH.SetMax])
    (by norm_num [NewDivergingMSH, DivergingMSH.SetMax])
    (by norm_num [NewDivergingMSH, DivergingMSH.SetMax])
    (by norm_num [NewDivergingMSH, DivergingMSH.SetMax])
    (by norm_num [NewDivergingMSH, DivergingMSH.SetMax])
  exact h

end
